import Mathlib

/-!
Verification of the food-finder dashboard (Next.js web UI) against its
natural-language specification.  The TypeScript sources under `src/ui/web`
are embedded shallowly: URL search parameters become finite partial maps,
JavaScript truthiness and `parseInt` are modelled explicitly, `JSON.parse`
is modelled by an executable recursive-descent parser of the JSON grammar,
and the draft-email modal becomes an explicit event/step transition system.
-/

namespace FoodFinder

/-! ## URL search parameters

`URLSearchParams` as read by `useSearchParams()` is modelled as a partial
map from keys to values (`get` returns `null` for a missing key).  `set`
and `delete` act pointwise; ordering of keys is irrelevant to every claim.
-/

def Query : Type := String → Option String

def emptyQuery : Query := fun _ => none

def Query.setKey (q : Query) (k v : String) : Query :=
  fun k2 => if k2 = k then some v else q k2

def Query.delKey (q : Query) (k : String) : Query :=
  fun k2 => if k2 = k then none else q k2

/-! ## JavaScript helpers -/

/-- JavaScript `x || d` for a nullable string `x`: the empty string is
falsy, so it also falls through to the default. -/
def strOrElse (x : Option String) (d : String) : String :=
  match x with
  | none => d
  | some s => if s = "" then d else s

/-- JavaScript `searchParams.get(k) || undefined`: `null` and the empty
string both become `undefined`. -/
def strOrUndef (x : Option String) : Option String :=
  match x with
  | none => none
  | some s => if s = "" then none else some s

/-- The decimal digits at the head of a character list (the prefix that
JavaScript `parseInt` consumes). -/
def leadingDigits : List Char → List Char
  | [] => []
  | c :: cs => if c.isDigit then c :: leadingDigits cs else []

def digitsToNat (l : List Char) : Nat :=
  l.foldl (fun a c => a * 10 + (c.toNat - 48)) 0

/-- JavaScript `parseInt(s)` (radix 10): skip leading whitespace, read an
optional sign and then the longest run of decimal digits; `none` models
`NaN` (no digits).  The `0x` hexadecimal auto-detection is not modelled;
no claim evaluates `parseInt` on such an input. -/
def jsParseInt (s : String) : Option Int :=
  let cs := s.data.dropWhile (fun c => c = ' ' ∨ c = '\t' ∨ c = '\n' ∨ c = '\r')
  match cs with
  | '-' :: rest =>
      if leadingDigits rest = [] then none
      else some (-(digitsToNat (leadingDigits rest) : Int))
  | '+' :: rest =>
      if leadingDigits rest = [] then none
      else some (digitsToNat (leadingDigits rest) : Int)
  | _ =>
      if leadingDigits cs = [] then none
      else some (digitsToNat (leadingDigits cs) : Int)

/-- JavaScript truthiness of a `boolean | null` value. -/
def jsTruthyOptBool : Option Bool → Bool
  | some b => b
  | none => false

def boolStr (b : Bool) : String := if b then "true" else "false"

/-! ## `LeadsQueryParams` (src/ui/web/lib/types.ts) and the URL-state parse
(src/ui/web/app/leads/page.tsx, `LeadsContent` params `useMemo`).

`page` is `Option Int` because `parseInt` can produce `NaN` (`none`).
Fields never set by the page (`min_score`, …) are kept so that the request
builder below follows `getLeads` line by line. -/

structure LeadsQueryParams where
  page : Option Int
  page_size : Nat
  sort_by : String
  sort_order : String
  state : Option String
  source : Option String
  min_score : Option Int
  max_score : Option Int
  is_qualified : Option Bool
  has_email : Option Bool
  is_us : Option Bool
  is_enriched : Option Bool
  company_type : Option String
  has_linkedin : Option Bool
  search : Option String
deriving DecidableEq, Repr

/-- The `useMemo` at src/ui/web/app/leads/page.tsx lines 28-42: parse the
URL query string into `LeadsQueryParams`. -/
def parseLeadsParams (q : Query) : LeadsQueryParams where
  page := jsParseInt (strOrElse (q "page") "1")
  page_size := 50
  sort_by := strOrElse (q "sort_by") "score"
  sort_order := strOrElse (q "sort_order") "desc"
  state := strOrUndef (q "state")
  source := strOrUndef (q "source")
  min_score := none
  max_score := none
  is_qualified :=
    if q "is_qualified" = some "true" then some true
    else if q "is_qualified" = some "false" then some false
    else none
  has_email := none
  is_us :=
    if q "is_us" = some "false" then some false
    else if q "is_us" = some "all" then none
    else some true
  is_enriched :=
    if q "is_enriched" = some "true" then some true
    else if q "is_enriched" = some "false" then some false
    else none
  company_type := none
  has_linkedin := none
  search := strOrUndef (q "search")

/-! ## The request built by `getLeads` (src/ui/web/lib/api.ts lines 29-50).

Each `if (params.x) searchParams.set('x', …)` contributes one optional
entry, in source order; `entriesToPairs` keeps exactly the set ones.  The
keys are pairwise distinct string literals, so `URLSearchParams` ordering
is captured by the association list. -/

def entriesToPairs (es : List (String × Option String)) : List (String × String) :=
  es.filterMap (fun e => e.2.map (fun v => (e.1, v)))

/-- `if (params.page)`: a JS number is truthy unless it is `0` or `NaN`. -/
def numTruthyStr (x : Option Int) : Option String :=
  match x with
  | none => none
  | some n => if n = 0 then none else some (toString n)

def natTruthyStr (n : Nat) : Option String :=
  if n = 0 then none else some (toString n)

/-- `if (params.sort_by)`: a string is truthy unless empty. -/
def strTruthy (s : String) : Option String :=
  if s = "" then none else some s

def getLeadsEntries (p : LeadsQueryParams) : List (String × Option String) :=
  [ ("page", numTruthyStr p.page)
  , ("page_size", natTruthyStr p.page_size)
  , ("sort_by", strTruthy p.sort_by)
  , ("sort_order", strTruthy p.sort_order)
  , ("state", p.state.bind strTruthy)
  , ("source", p.source.bind strTruthy)
  , ("min_score", p.min_score.map toString)
  , ("max_score", p.max_score.map toString)
  , ("is_qualified", p.is_qualified.map boolStr)
  , ("has_email", p.has_email.map boolStr)
  , ("is_us", p.is_us.map boolStr)
  , ("is_enriched", p.is_enriched.map boolStr)
  , ("company_type", p.company_type.bind strTruthy)
  , ("has_linkedin", p.has_linkedin.map boolStr)
  , ("search", p.search.bind strTruthy) ]

/-- The query-string pairs of the `/leads/` request issued by `getLeads`. -/
def getLeadsQuery (p : LeadsQueryParams) : List (String × String) :=
  entriesToPairs (getLeadsEntries p)

/-- Value carried for a key by a built request (first matching pair). -/
def pairsLookup (l : List (String × String)) (k : String) : Option String :=
  (l.find? (fun e => e.1 == k)).map (fun e => e.2)

/-! ## `updateParams` and `clearFilters`
(src/ui/web/app/leads/page.tsx lines 58-75 and 93-96).

The argument object is a list of key/value entries in insertion order; a
value of `none` models `undefined` and `some ""` the empty string, both of
which delete the key. -/

def jsSetDelete (cur : Query) (k : String) (v : Option String) : Query :=
  match v with
  | none => cur.delKey k
  | some s => if s = "" then cur.delKey k else cur.setKey k s

def applyEntries (cur : Query) : List (String × Option String) → Query
  | [] => cur
  | (k, v) :: rest => applyEntries (jsSetDelete cur k v) rest

/-- `updateParams` (lines 58-75): apply every entry, then reset `page` to
`'1'` unless the argument object itself carries a `page` key. -/
def updateParams (cur : Query) (newParams : List (String × Option String)) : Query :=
  let c := applyEntries cur newParams
  if newParams.any (fun e => e.1 == "page") then c else c.setKey "page" "1"

/-- `clearFilters` (lines 93-96) navigates to the bare list route. -/
def clearFiltersDest : String := "/leads"

/-! ## JSON values and `JSON.parse`
(consumed by `parseJsonSafe`, src/ui/web/lib/utils.ts lines 57-64).

`JSON.parse` is the JavaScript built-in; it is embedded as an executable
recursive-descent parser of the JSON grammar (ECMA-404).  Numbers are kept
as their parsed lexeme pieces (sign, integer digits, fraction digits,
exponent) rather than converted to binary floating point: no claim depends
on numeric value beyond zeroness, which the lexeme determines exactly.
`\uXXXX` escapes encoding surrogate halves are rejected (a Lean `Char`
cannot hold a lone surrogate); no claim depends on such inputs. -/

inductive Json where
  | null : Json
  | bool : Bool → Json
  | num : (neg : Bool) → (whole : List Char) → (frac : List Char) →
      (eneg : Bool) → (edigs : List Char) → Json
  | str : String → Json
  | arr : List Json → Json
  | obj : List (String × Json) → Json

/-- JSON insignificant whitespace. -/
def skipWs : List Char → List Char
  | [] => []
  | c :: cs =>
      if c = ' ' ∨ c = '\t' ∨ c = '\n' ∨ c = '\r' then skipWs cs else c :: cs

def spanDigits (cs : List Char) : List Char × List Char :=
  (cs.takeWhile Char.isDigit, cs.dropWhile Char.isDigit)

/-- JSON number grammar: `-?(0|[1-9][0-9]*)(\.[0-9]+)?([eE][+-]?[0-9]+)?`. -/
def parseNumber (cs : List Char) : Option (Json × List Char) :=
  let sr : Bool × List Char := match cs with | '-' :: r => (true, r) | _ => (false, cs)
  let neg := sr.1
  let ws := spanDigits sr.2
  let whole := ws.1
  if whole = [] then none
  else if whole.length > 1 ∧ whole.head? = some '0' then none
  else
    let fr : Option (List Char × List Char) :=
      match ws.2 with
      | '.' :: r =>
          let fs := spanDigits r
          if fs.1 = [] then none else some fs
      | _ => some ([], ws.2)
    match fr with
    | none => none
    | some (frac, cs3) =>
        match cs3 with
        | 'e' :: r | 'E' :: r =>
            let er : Bool × List Char :=
              match r with
              | '-' :: r2 => (true, r2)
              | '+' :: r2 => (false, r2)
              | _ => (false, r)
            let es := spanDigits er.2
            if es.1 = [] then none
            else some (.num neg whole frac er.1 es.1, es.2)
        | _ => some (.num neg whole frac false [], cs3)

/-- The single-character JSON string escapes. -/
def escChar (c : Char) : Option Char :=
  if c = '"' then some '"'
  else if c = '\\' then some '\\'
  else if c = '/' then some '/'
  else if c = 'b' then some (Char.ofNat 8)
  else if c = 'f' then some (Char.ofNat 12)
  else if c = 'n' then some '\n'
  else if c = 'r' then some '\r'
  else if c = 't' then some '\t'
  else none

def hexDigit (c : Char) : Option Nat :=
  if '0' ≤ c ∧ c ≤ '9' then some (c.toNat - 48)
  else if 'a' ≤ c ∧ c ≤ 'f' then some (c.toNat - 87)
  else if 'A' ≤ c ∧ c ≤ 'F' then some (c.toNat - 55)
  else none

/-- A `\uXXXX` escape; surrogate code points are rejected. -/
def hex4 (a b c d : Char) : Option Nat :=
  match hexDigit a, hexDigit b, hexDigit c, hexDigit d with
  | some x, some y, some z, some w =>
      let n := ((x * 16 + y) * 16 + z) * 16 + w
      if 0xD800 ≤ n ∧ n ≤ 0xDFFF then none else some n
  | _, _, _, _ => none

mutual

/-- One JSON value; the fuel bounds recursion depth and is chosen large
enough (`4 * (length + 4)` at top level) that it is never exhausted on an
input that the grammar accepts. -/
def parseValue : Nat → List Char → Option (Json × List Char)
  | 0, _ => none
  | fuel + 1, cs =>
      match skipWs cs with
      | 'n' :: 'u' :: 'l' :: 'l' :: rest => some (.null, rest)
      | 't' :: 'r' :: 'u' :: 'e' :: rest => some (.bool true, rest)
      | 'f' :: 'a' :: 'l' :: 's' :: 'e' :: rest => some (.bool false, rest)
      | '"' :: rest => (parseStrBody fuel rest []).map (fun p => (.str p.1, p.2))
      | '[' :: rest =>
          (match skipWs rest with
           | ']' :: r2 => some (.arr [], r2)
           | _ => (parseItems fuel rest []).map (fun p => (.arr p.1, p.2)))
      | '{' :: rest =>
          (match skipWs rest with
           | '}' :: r2 => some (.obj [], r2)
           | _ => (parseFields fuel rest []).map (fun p => (.obj p.1, p.2)))
      | other => parseNumber other

/-- The body of a JSON string after the opening quote. -/
def parseStrBody : Nat → List Char → List Char → Option (String × List Char)
  | 0, _, _ => none
  | fuel + 1, cs, acc =>
      match cs with
      | [] => none
      | '"' :: rest => some (String.mk acc.reverse, rest)
      | '\\' :: 'u' :: a :: b :: c :: d :: rest =>
          (match hex4 a b c d with
           | some n => parseStrBody fuel rest (Char.ofNat n :: acc)
           | none => none)
      | '\\' :: c :: rest =>
          (match escChar c with
           | some e => parseStrBody fuel rest (e :: acc)
           | none => none)
      | c :: rest =>
          if c.toNat < 32 then none else parseStrBody fuel rest (c :: acc)

/-- Comma-separated array items up to the closing bracket. -/
def parseItems : Nat → List Char → List Json → Option (List Json × List Char)
  | 0, _, _ => none
  | fuel + 1, cs, acc =>
      match parseValue fuel cs with
      | none => none
      | some (v, rest) =>
          match skipWs rest with
          | ',' :: r2 => parseItems fuel r2 (acc ++ [v])
          | ']' :: r2 => some (acc ++ [v], r2)
          | _ => none

/-- Comma-separated `"key": value` members up to the closing brace. -/
def parseFields : Nat → List Char → List (String × Json) →
    Option (List (String × Json) × List Char)
  | 0, _, _ => none
  | fuel + 1, cs, acc =>
      match skipWs cs with
      | '"' :: r1 =>
          (match parseStrBody fuel r1 [] with
           | none => none
           | some (k, r2) =>
               match skipWs r2 with
               | ':' :: r3 =>
                   (match parseValue fuel r3 with
                    | none => none
                    | some (v, r4) =>
                        match skipWs r4 with
                        | ',' :: r5 => parseFields fuel r5 (acc ++ [(k, v)])
                        | '}' :: r5 => some (acc ++ [(k, v)], r5)
                        | _ => none)
               | _ => none)
      | _ => none

end

/-- `JSON.parse(s)`: a JSON value covering the whole input; `none` models
a thrown `SyntaxError`. -/
def jsonParse (s : String) : Option Json :=
  match parseValue (4 * (s.length + 4)) s.data with
  | some (v, rest) => if skipWs rest = [] then some v else none
  | none => none

/-- `parseJsonSafe` (src/ui/web/lib/utils.ts lines 57-64): `!str` is true
for `null` and for the empty string; a parse failure is caught and mapped
to `null`.  The function is total by construction — the `try/catch` means
no exception escapes. -/
def parseJsonSafe (str : Option String) : Option Json :=
  match str with
  | none => none
  | some s => if s = "" then none else jsonParse s

/-- JavaScript truthiness of a parsed JSON value: `null`, `false`, zero
numbers and the empty string are falsy. -/
def jsTruthy : Json → Bool
  | .null => false
  | .bool b => b
  | .num _ whole frac _ _ => (whole ++ frac).any (fun c => c != '0')
  | .str s => s != ""
  | .arr _ => true
  | .obj _ => true

/-- JavaScript `.length`: arrays and strings have one, everything else
yields `undefined` (`none`). -/
def jsLength : Json → Option Nat
  | .arr xs => some xs.length
  | .str s => some s.length
  | _ => none

/-- The guard at src/ui/web/app/leads/[id]/page.tsx line 333:
`techStack && techStack.length > 0` applied to the result of
`parseJsonSafe(lead.tech_stack)` (line 75). -/
def chipsGuard (t : Option Json) : Bool :=
  match t with
  | none => false
  | some v =>
      jsTruthy v &&
        (match jsLength v with
         | some n => decide (0 < n)
         | none => false)

/-- The rendered tech-stack chips of the detail page: nothing when the
guard fails; when the guard passes, `techStack.map(...)` succeeds only on
an array — on any other value `.map` is not a function and the render
throws (`Except.error`). -/
def renderedChips (ts : Option String) : Except Unit (List Json) :=
  let t := parseJsonSafe ts
  if chipsGuard t then
    match t with
    | some (.arr xs) => .ok xs
    | _ => .error ()
  else .ok []

/-! ## The draft-email modal
(src/ui/web/components/draft-email-modal.tsx).

The component is embedded as an explicit transition system.  Its state
combines the `useState` hooks (`subject`, `body`, `enrichedInfo`) with the
`useMutation` machine of TanStack Query (status in
{idle, pending, success, error}; `mutate()` moves to `pending` clearing
`data`/`error`; resolution sets `data` or `error`; `reset()` returns to
`idle`).  `openEffectPending` records that the `[isOpen]` effect (lines
47-52) has been scheduled by an `isOpen` change and has not run yet.
`inflight` is a ghost counter of this modal session's outstanding draft
requests; closing the modal resets the session (the `useEffect` at lines
54-64 calls `mutation.reset()`), so the counter is session-scoped. -/

structure EnrichedCompanyInfo where
  about_text : Option String
  products : List String
  services : List String
  key_phrases : List String
deriving DecidableEq, Repr

structure DraftEmailResponse where
  subject : String
  body : String
  enriched_info : Option EnrichedCompanyInfo
deriving DecidableEq, Repr

inductive MutationStatus where
  | idle | pending | success | error
deriving DecidableEq, Repr

structure ModalState where
  isOpen : Bool
  subject : String
  body : String
  enrichedInfo : Option EnrichedCompanyInfo
  status : MutationStatus
  mdata : Option DraftEmailResponse
  merror : Option String
  openEffectPending : Bool
  inflight : Nat
deriving DecidableEq, Repr

/-- The modal before it is first opened. -/
def initModal : ModalState where
  isOpen := false
  subject := ""
  body := ""
  enrichedInfo := none
  status := .idle
  mdata := none
  merror := none
  openEffectPending := false
  inflight := 0

inductive ModalEvent where
  /-- The parent sets `isOpen` to true. -/
  | openModal
  /-- The parent sets `isOpen` to false (backdrop / close button). -/
  | closeModal
  /-- The `[isOpen]` effect body runs (lines 47-52). -/
  | autoTrigger
  /-- The footer `Regenerate` button (lines 293-300). -/
  | regenerate
  /-- The `Try Again` button of the error branch (lines 140-145). -/
  | tryAgain
  /-- The in-flight request resolves successfully, running `onSuccess`
  (lines 40-44). -/
  | resolveSuccess (d : DraftEmailResponse)
  /-- The in-flight request fails. -/
  | resolveError (msg : String)
  /-- The user edits the subject input (line 251). -/
  | editSubject (s : String)
  /-- The user edits the body textarea (line 282). -/
  | editBody (s : String)

/-- Which events the component can produce in a given state: buttons only
exist on the branches that render them, the effect only runs when
scheduled, and a request only resolves while one is pending. -/
def enabled (s : ModalState) : ModalEvent → Prop
  | .openModal => s.isOpen = false
  | .closeModal => s.isOpen = true
  | .autoTrigger => s.openEffectPending = true ∧ s.isOpen = true
  | .regenerate =>
      s.isOpen = true ∧ s.status ≠ .pending ∧ s.status ≠ .error
  | .tryAgain => s.isOpen = true ∧ s.status = .error
  | .resolveSuccess _ => s.status = .pending
  | .resolveError _ => s.status = .pending
  | .editSubject _ =>
      s.isOpen = true ∧ s.status ≠ .pending ∧ s.status ≠ .error
  | .editBody _ =>
      s.isOpen = true ∧ s.status ≠ .pending ∧ s.status ≠ .error

/-- `mutation.mutate()`: status becomes pending, `data` and `error` are
cleared, and one more request goes out. -/
def startMutation (s : ModalState) : ModalState :=
  { s with status := .pending, mdata := none, merror := none,
           inflight := s.inflight + 1 }

/-- The guard of the `[isOpen]` effect:
`isOpen && !mutation.isPending && !mutation.data`. -/
def autoTriggerGuard (s : ModalState) : Prop :=
  s.isOpen = true ∧ s.status ≠ .pending ∧ s.mdata = none

instance (s : ModalState) : Decidable (autoTriggerGuard s) := by
  unfold autoTriggerGuard; infer_instance

def step (s : ModalState) : ModalEvent → ModalState
  | .openModal => { s with isOpen := true, openEffectPending := true }
  | .closeModal =>
      -- the reset effect (lines 54-64): clear the hooks and the mutation
      { s with isOpen := false, openEffectPending := false,
               subject := "", body := "", enrichedInfo := none,
               status := .idle, mdata := none, merror := none,
               inflight := 0 }
  | .autoTrigger =>
      let s1 := { s with openEffectPending := false }
      if autoTriggerGuard s then startMutation s1 else s1
  | .regenerate => startMutation s
  | .tryAgain => startMutation s
  | .resolveSuccess d =>
      { s with status := .success, mdata := some d, merror := none,
               subject := d.subject, body := d.body,
               enrichedInfo := d.enriched_info,
               inflight := s.inflight - 1 }
  | .resolveError msg =>
      { s with status := .error, merror := some msg,
               inflight := s.inflight - 1 }
  | .editSubject str => { s with subject := str }
  | .editBody str => { s with body := str }

/-- The events that invoke `mutation.mutate()` in a given state. -/
def invokesGeneration (s : ModalState) : ModalEvent → Prop
  | .autoTrigger => autoTriggerGuard s
  | .regenerate => True
  | .tryAgain => True
  | _ => False

/-- States the component can actually be in, starting closed. -/
inductive Reachable : ModalState → Prop where
  | init : Reachable initModal
  | next {s : ModalState} (e : ModalEvent) :
      Reachable s → enabled s e → Reachable (step s e)

/-! ## `postAPI` / `generateDraftEmail` (src/ui/web/lib/api.ts 60-76). -/

structure HttpResponse where
  status : Nat
  bodyText : String
deriving DecidableEq, Repr

/-- `Response.ok` per the fetch specification: status in [200, 299]. -/
def respOk (r : HttpResponse) : Bool :=
  decide (200 ≤ r.status ∧ r.status ≤ 299)

inductive ApiFailure where
  /-- The thrown `Error('API error: …')` of the non-ok branch. -/
  | apiError (msg : String)
  /-- `res.json()` rejected on an ok response with an unparsable body. -/
  | jsonError
deriving DecidableEq

/-- `postAPI` (lines 60-72): ok responses are decoded as JSON, non-2xx
responses reject with `API error: ${status} ${errorText}`. -/
def postAPIResult (r : HttpResponse) : Except ApiFailure Json :=
  if respOk r then
    match jsonParse r.bodyText with
    | some v => .ok v
    | none => .error .jsonError
  else
    .error (.apiError ("API error: " ++ toString r.status ++ " " ++ r.bodyText))

def draftEndpoint (leadId : Int) : String :=
  "/email/" ++ toString leadId ++ "/draft"

/-- `generateDraftEmail` (lines 74-76) posts to the draft endpoint and
propagates `postAPI`'s outcome for the response `r`. -/
def generateDraftEmailResult (_leadId : Int) (r : HttpResponse) :
    Except ApiFailure Json :=
  postAPIResult r

/-- The error text the modal shows
(src/ui/web/components/draft-email-modal.tsx lines 137-139):
`mutation.error?.message || 'An unexpected error occurred'`. -/
def displayedDraftError (merror : Option String) : String :=
  strOrElse merror "An unexpected error occurred"

/-! ## Dashboard `Qualified` card (src/unnamed/part_002 lines 64-72).

`(stats.qualified / stats.total) * 100` is IEEE-754 division of two
nonnegative integral doubles; only the `total = 0` case is claimed, and
there the result is exactly `NaN` (`0/0`) or `+Infinity` (`q/0`, `q > 0`),
independent of rounding.  Finite quotients are kept as exact rationals;
`toFixed(1)` on them is modelled by decimal rounding (double rounding
error is not modelled — no claim evaluates a finite case). -/

inductive JsNumber where
  | nan | posInf | negInf
  | finite (q : ℚ)
deriving DecidableEq, Repr

def jsDivNat (a b : Nat) : JsNumber :=
  if b = 0 then (if a = 0 then .nan else .posInf)
  else .finite ((a : ℚ) / (b : ℚ))

def jsMul100 : JsNumber → JsNumber
  | .nan => .nan
  | .posInf => .posInf
  | .negInf => .negInf
  | .finite q => .finite (q * 100)

/-- `Number.prototype.toFixed(1)`. -/
def toFixed1 : JsNumber → String
  | .nan => "NaN"
  | .posInf => "Infinity"
  | .negInf => "-Infinity"
  | .finite q =>
      let n : Int := round (q * 10)
      let sgn : String := if n < 0 then "-" else ""
      sgn ++ toString (n.natAbs / 10) ++ "." ++ toString (n.natAbs % 10)

/-- The subtitle of the `Qualified` stats card:
`` `${((stats.qualified / stats.total) * 100).toFixed(1)}% of total` ``. -/
def qualifiedSubtitle (qualified total : Nat) : String :=
  toFixed1 (jsMul100 (jsDivNat qualified total)) ++ "% of total"

/-! ## Qualification badges and score labels. -/

/-- The status cell of the leads table
(src/ui/web/app/leads/page.tsx lines 329-339):
`lead.is_qualified ? 'Qualified' : 'Disqualified'`
on an `is_qualified : boolean | null`. -/
def leadRowStatus (q : Option Bool) : String :=
  if jsTruthyOptBool q then "Qualified" else "Disqualified"

/-- The qualified badge of the detail page
(src/ui/web/app/leads/[id]/page.tsx lines 124-134), same conditional. -/
def leadDetailStatus (q : Option Bool) : String :=
  if jsTruthyOptBool q then "Qualified" else "Disqualified"

/-- `getScoreLabel` (src/ui/web/lib/utils.ts lines 44-50).  Scores reach
the UI as numbers; the claims quantify over integer scores, so the
argument is `Option Int`. -/
def getScoreLabel (score : Option Int) : String :=
  match score with
  | none => "N/A"
  | some s =>
      if s ≥ 60 then "Excellent"
      else if s ≥ 40 then "Good"
      else if s ≥ 20 then "Fair"
      else "Low"

/-- The legend of the score chart
(src/ui/web/components/score-chart.tsx lines 82-99). -/
def scoreChartLegend : List (String × String) :=
  [("0-20", "Low"), ("21-40", "Fair"), ("41-60", "Good"), ("61-80", "Excellent")]

def legendLabel (range : String) : Option String :=
  ((scoreChartLegend.find? (fun e => e.1 == range)).map (fun e => e.2))

/-- The fixed histogram bucket containing an integer score, as the claim
words it from the legend ranges 0-20 / 21-40 / 41-60 / 61-80 (the bucket
computation itself lives in the backend, outside this excerpt). -/
def specBucketOf (s : Int) : String :=
  if s ≤ 20 then "0-20"
  else if s ≤ 40 then "21-40"
  else if s ≤ 60 then "41-60"
  else "61-80"

/-- The legend label of the bucket containing `s`. -/
def specBucketLabel (s : Int) : String :=
  (legendLabel (specBucketOf s)).getD ""

/-! ## Helper lemmas -/

lemma pairsLookup_entries_none (es : List (String × Option String)) (k : String)
    (h : ∀ e ∈ es, e.1 ≠ k) : pairsLookup (entriesToPairs es) k = none := by
  induction es with
  | nil => rfl
  | cons e es ih =>
      obtain ⟨k1, v⟩ := e
      have hk : (k1 == k) = false := by
        simpa using h (k1, v) (List.mem_cons_self _ _)
      have ih2 := ih (fun e he => h e (List.mem_cons_of_mem _ he))
      cases v with
      | none => simpa [entriesToPairs, List.filterMap_cons] using ih2
      | some s =>
          simpa [entriesToPairs, List.filterMap_cons, pairsLookup,
            List.find?_cons, hk] using ih2

lemma pairsLookup_entries_split (es1 es2 : List (String × Option String))
    (k : String) (v : Option String)
    (h1 : ∀ e ∈ es1, e.1 ≠ k) (h2 : ∀ e ∈ es2, e.1 ≠ k) :
    pairsLookup (entriesToPairs (es1 ++ (k, v) :: es2)) k = v := by
  induction es1 with
  | nil =>
      cases v with
      | none =>
          simpa [entriesToPairs, List.filterMap_cons] using
            pairsLookup_entries_none es2 k h2
      | some s =>
          simp [entriesToPairs, List.filterMap_cons, pairsLookup, List.find?_cons]
  | cons e es ih =>
      obtain ⟨k1, w⟩ := e
      have hk : (k1 == k) = false := by
        simpa using h1 (k1, w) (List.mem_cons_self _ _)
      have ih2 := ih (fun e he => h1 e (List.mem_cons_of_mem _ he))
      cases w with
      | none => simpa [entriesToPairs, List.filterMap_cons] using ih2
      | some s =>
          simpa [entriesToPairs, List.filterMap_cons, pairsLookup,
            List.find?_cons, hk] using ih2

/-- The request built by `getLeads` carries exactly the `is_us` value of
its argument, stringified. -/
lemma getLeadsQuery_is_us (p : LeadsQueryParams) :
    pairsLookup (getLeadsQuery p) "is_us" = p.is_us.map boolStr := by
  have hsplit : getLeadsEntries p =
      [ ("page", numTruthyStr p.page)
      , ("page_size", natTruthyStr p.page_size)
      , ("sort_by", strTruthy p.sort_by)
      , ("sort_order", strTruthy p.sort_order)
      , ("state", p.state.bind strTruthy)
      , ("source", p.source.bind strTruthy)
      , ("min_score", p.min_score.map toString)
      , ("max_score", p.max_score.map toString)
      , ("is_qualified", p.is_qualified.map boolStr)
      , ("has_email", p.has_email.map boolStr) ] ++
      ("is_us", p.is_us.map boolStr) ::
      [ ("is_enriched", p.is_enriched.map boolStr)
      , ("company_type", p.company_type.bind strTruthy)
      , ("has_linkedin", p.has_linkedin.map boolStr)
      , ("search", p.search.bind strTruthy) ] := rfl
  rw [getLeadsQuery, hsplit]
  refine pairsLookup_entries_split _ _ _ _ ?_ ?_ <;>
    · intro e he
      fin_cases he <;> simp

lemma updateParams_page_of_no_page_key (cur : Query)
    (np : List (String × Option String)) (h : ∀ e ∈ np, e.1 ≠ "page") :
    updateParams cur np "page" = some "1" := by
  have hany : np.any (fun e => e.1 == "page") = false := by
    rw [List.any_eq_false]
    intro e he
    simpa using h e he
  unfold updateParams
  rw [hany]
  simp [Query.setKey]

/-! ## Claims -/

/-- C1: the `is_us` URL parameter is a tri-state with a US-only default:
for every URL query string, `is_us=false` yields a leads request carrying
`is_us=false`, `is_us=all` yields a request with no `is_us` parameter, and
an absent or any other value yields a request carrying `is_us=true`. -/
theorem is_us_tristate_request (q : Query) :
    (q "is_us" = some "false" →
      pairsLookup (getLeadsQuery (parseLeadsParams q)) "is_us" = some "false")
  ∧ (q "is_us" = some "all" →
      pairsLookup (getLeadsQuery (parseLeadsParams q)) "is_us" = none)
  ∧ (∀ v, q "is_us" = v → v ≠ some "false" → v ≠ some "all" →
      pairsLookup (getLeadsQuery (parseLeadsParams q)) "is_us" = some "true") := by
  have hbase := getLeadsQuery_is_us (parseLeadsParams q)
  have hfield : (parseLeadsParams q).is_us =
      (if q "is_us" = some "false" then some false
       else if q "is_us" = some "all" then none
       else some true) := rfl
  refine ⟨?_, ?_, ?_⟩
  · intro h
    rw [hbase, hfield, h]
    simp [boolStr]
  · intro h
    rw [hbase, hfield, h]
    simp
  · intro v hv h1 h2
    rw [hbase, hfield, hv, if_neg h1, if_neg h2]
    simp [boolStr]

theorem is_us_tristate_request_witness :
    pairsLookup (getLeadsQuery (parseLeadsParams
      (Query.setKey emptyQuery "is_us" "false"))) "is_us" = some "false"
  ∧ pairsLookup (getLeadsQuery (parseLeadsParams
      (Query.setKey emptyQuery "is_us" "all"))) "is_us" = none
  ∧ pairsLookup (getLeadsQuery (parseLeadsParams emptyQuery)) "is_us" = some "true" :=
  ⟨(is_us_tristate_request _).1 rfl,
   (is_us_tristate_request _).2.1 rfl,
   (is_us_tristate_request _).2.2 none rfl (by decide) (by decide)⟩

/-- C2: every `updateParams` call whose argument carries no `page` key
resets the URL's `page` parameter to `'1'`; a resulting page value other
than `'1'` is possible only when the update explicitly carries a `page`
key. -/
theorem page_reset_on_filter_change :
    (∀ (cur : Query) (np : List (String × Option String)),
        (∀ e ∈ np, e.1 ≠ "page") → updateParams cur np "page" = some "1")
  ∧ (∀ (cur : Query) (np : List (String × Option String)),
        updateParams cur np "page" ≠ some "1" → ∃ e ∈ np, e.1 = "page") := by
  refine ⟨updateParams_page_of_no_page_key, ?_⟩
  intro cur np h
  by_contra hex
  push_neg at hex
  exact h (updateParams_page_of_no_page_key cur np hex)

theorem page_reset_on_filter_change_witness :
    updateParams emptyQuery [("state", some "CA")] "page" = some "1"
  ∧ ∃ e ∈ [(("page" : String), (some "7" : Option String))], e.1 = "page" :=
  ⟨page_reset_on_filter_change.1 emptyQuery _
      (by intro e he; fin_cases he; decide),
   page_reset_on_filter_change.2 emptyQuery _ (by decide)⟩

/-- C3: clearing filters navigates to the bare `/leads` URL, and the state
parsed from that URL is the documented default: page 1, page_size 50, sort
by score descending, no state/source/qualification/enrichment/search
filters, and `is_us = true` (US-only), not `'all'`. -/
theorem clear_filters_defaults :
    clearFiltersDest = "/leads" ∧
    parseLeadsParams emptyQuery =
      { page := some 1, page_size := 50, sort_by := "score",
        sort_order := "desc", state := none, source := none,
        min_score := none, max_score := none, is_qualified := none,
        has_email := none, is_us := some true, is_enriched := none,
        company_type := none, has_linkedin := none, search := none } :=
  ⟨rfl, by decide⟩

/-- C4: decoding a stored `tech_stack` payload is total and falls back to
no data: `parseJsonSafe` returns `null` on a `null` input and on any input
`JSON.parse` rejects (it is a total Lean function, so it never throws),
and the detail page renders tech-stack chips only when the decode yields a
non-empty list. -/
theorem tech_stack_decode_total :
    parseJsonSafe none = none
  ∧ (∀ s : String, jsonParse s = none → parseJsonSafe (some s) = none)
  ∧ (∀ (ts : Option String) (xs : List Json),
      renderedChips ts = .ok xs → xs ≠ [] →
      parseJsonSafe ts = some (.arr xs) ∧ 0 < xs.length) := by
  refine ⟨rfl, ?_, ?_⟩
  · intro s h
    show (if s = "" then none else jsonParse s) = none
    split
    · rfl
    · exact h
  · intro ts xs hok hne
    simp only [renderedChips] at hok
    split at hok
    · rename_i hg
      split at hok
      · rename_i l heq
        obtain rfl : l = xs := by injection hok
        refine ⟨heq, ?_⟩
        rw [heq] at hg
        simpa [chipsGuard, jsTruthy, jsLength] using hg
      · exact absurd hok (by simp)
    · obtain rfl : ([] : List Json) = xs := by injection hok
      exact absurd rfl hne

theorem tech_stack_decode_total_witness :
    parseJsonSafe (some "\x7b") = none
  ∧ parseJsonSafe (some "[\"React\"]") = some (.arr [.str "React"])
  ∧ 0 < [Json.str "React"].length :=
  ⟨tech_stack_decode_total.2.1 "\x7b" rfl,
   (tech_stack_decode_total.2.2 (some "[\"React\"]") [.str "React"] rfl
      (by simp)).1,
   (tech_stack_decode_total.2.2 (some "[\"React\"]") [.str "React"] rfl
      (by simp)).2⟩

/-- The subject, body and enriched-info hooks of the modal. -/
def contentEq (a b : ModalState) : Prop :=
  a.subject = b.subject ∧ a.body = b.body ∧ a.enrichedInfo = b.enrichedInfo

/-- C5: the draft-email subject, body and enriched info are updated only
by a successful generation.  Every failed attempt — starting the request
(by the auto trigger, Regenerate or Try Again) and its failure resolution,
in particular a failed regenerate after a prior success — leaves the three
content fields exactly as they were; only `resolveSuccess` replaces them,
with the new response's content. -/
theorem draft_failure_preserves_content (s : ModalState) (msg : String)
    (d : DraftEmailResponse) :
    contentEq (step (step s .regenerate) (.resolveError msg)) s
  ∧ contentEq (step (step s .tryAgain) (.resolveError msg)) s
  ∧ contentEq (step (step s .autoTrigger) (.resolveError msg)) s
  ∧ contentEq (step s (.resolveError msg)) s
  ∧ (step s (.resolveSuccess d)).subject = d.subject
  ∧ (step s (.resolveSuccess d)).body = d.body
  ∧ (step s (.resolveSuccess d)).enrichedInfo = d.enriched_info := by
  refine ⟨?_, ?_, ?_, ?_, rfl, rfl, rfl⟩ <;>
    · unfold contentEq step startMutation
      dsimp only
      try split
      all_goals simp

lemma reachable_inflight {s : ModalState} (h : Reachable s) :
    s.inflight ≤ 1 ∧ (s.status = .pending ↔ s.inflight = 1) := by
  induction h with
  | init => exact ⟨by decide, by decide⟩
  | next e hr hen ih =>
      obtain ⟨ih1, ih2⟩ := ih
      rename_i s
      cases e with
      | openModal => exact ⟨ih1, ih2⟩
      | closeModal => simp [step]
      | autoTrigger =>
          simp only [step]
          split
          · rename_i hg
            have h0 : s.inflight = 0 := by
              rcases Nat.eq_or_lt_of_le ih1 with h | h
              · exact absurd (ih2.mpr h) hg.2.1
              · omega
            simp [startMutation, h0]
          · exact ⟨ih1, ih2⟩
      | regenerate =>
          have h0 : s.inflight = 0 := by
            rcases Nat.eq_or_lt_of_le ih1 with h | h
            · exact absurd (ih2.mpr h) hen.2.1
            · omega
          simp [step, startMutation, h0]
      | tryAgain =>
          have hnp : s.status ≠ .pending := by
            rw [hen.2]; decide
          have h0 : s.inflight = 0 := by
            rcases Nat.eq_or_lt_of_le ih1 with h | h
            · exact absurd (ih2.mpr h) hnp
            · omega
          simp [step, startMutation, h0]
      | resolveSuccess d =>
          have h1 : s.inflight = 1 := ih2.mp hen
          simp [step, h1]
      | resolveError msg =>
          have h1 : s.inflight = 1 := ih2.mp hen
          simp [step, h1]
      | editSubject str => exact ⟨ih1, ih2⟩
      | editBody str => exact ⟨ih1, ih2⟩

/-- C6: at most one draft request is outstanding per open modal session,
and opening the modal auto-invokes generation at most once.  In every
reachable state, every event that invokes the generation call (the
auto-trigger under its guard, Regenerate, Try Again) is enabled only with
no request in flight and no pending status; the auto-trigger runs only
when its scheduled flag is set, clears that flag, and only opening the
modal sets it again. -/
theorem single_inflight_generation :
    (∀ s : ModalState, Reachable s → s.inflight ≤ 1)
  ∧ (∀ (s : ModalState) (e : ModalEvent), Reachable s → enabled s e →
      invokesGeneration s e → s.inflight = 0 ∧ s.status ≠ .pending)
  ∧ (∀ s : ModalState, enabled s .autoTrigger → s.openEffectPending = true)
  ∧ (∀ s : ModalState, (step s .autoTrigger).openEffectPending = false)
  ∧ (∀ (s : ModalState) (e : ModalEvent),
      (step s e).openEffectPending = true →
      s.openEffectPending = true ∨ e = .openModal) := by
  have key : ∀ (s : ModalState), Reachable s → s.status ≠ .pending →
      s.inflight = 0 := by
    intro s hr hnp
    obtain ⟨h1, h2⟩ := reachable_inflight hr
    rcases Nat.eq_or_lt_of_le h1 with h | h
    · exact absurd (h2.mpr h) hnp
    · omega
  refine ⟨fun s hr => (reachable_inflight hr).1, ?_, ?_, ?_, ?_⟩
  · intro s e hr hen hinv
    cases e with
    | autoTrigger =>
        have hnp : s.status ≠ .pending := hinv.2.1
        exact ⟨key s hr hnp, hnp⟩
    | regenerate =>
        have hnp : s.status ≠ .pending := hen.2.1
        exact ⟨key s hr hnp, hnp⟩
    | tryAgain =>
        have hnp : s.status ≠ .pending := by rw [hen.2]; decide
        exact ⟨key s hr hnp, hnp⟩
    | openModal => exact absurd hinv (by simp [invokesGeneration])
    | closeModal => exact absurd hinv (by simp [invokesGeneration])
    | resolveSuccess d => exact absurd hinv (by simp [invokesGeneration])
    | resolveError msg => exact absurd hinv (by simp [invokesGeneration])
    | editSubject str => exact absurd hinv (by simp [invokesGeneration])
    | editBody str => exact absurd hinv (by simp [invokesGeneration])
  · exact fun s hen => hen.1
  · intro s
    simp only [step]
    split <;> simp [startMutation]
  · intro s e h
    cases e with
    | openModal => exact Or.inr rfl
    | autoTrigger =>
        refine Or.inl ?_
        simp only [step] at h
        revert h
        split <;> simp [startMutation]
    | closeModal => simp [step] at h
    | regenerate => exact Or.inl (by simpa [step, startMutation] using h)
    | tryAgain => exact Or.inl (by simpa [step, startMutation] using h)
    | resolveSuccess d => exact Or.inl (by simpa [step] using h)
    | resolveError msg => exact Or.inl (by simpa [step] using h)
    | editSubject str => exact Or.inl (by simpa [step] using h)
    | editBody str => exact Or.inl (by simpa [step] using h)

theorem single_inflight_generation_witness :
    (step initModal .openModal).inflight = 0
  ∧ (step initModal .openModal).status ≠ .pending :=
  single_inflight_generation.2.1 (step initModal .openModal) .autoTrigger
    (Reachable.next .openModal Reachable.init rfl)
    ⟨rfl, rfl⟩ ⟨rfl, by decide, rfl⟩

/-- C7: for every non-2xx response to the draft endpoint,
`generateDraftEmail` rejects with an error whose message contains the
HTTP status and the response body text, and the modal surfaces that
message verbatim (its fallback text appears only when the message is
absent). -/
theorem draft_error_message_verbatim (leadId : Int) (r : HttpResponse)
    (h : ¬ (200 ≤ r.status ∧ r.status ≤ 299)) :
    ∃ msg, generateDraftEmailResult leadId r = .error (.apiError msg)
      ∧ (∃ a b, msg = a ++ toString r.status ++ b)
      ∧ (∃ c, msg = c ++ r.bodyText)
      ∧ displayedDraftError (some msg) = msg
      ∧ displayedDraftError none = "An unexpected error occurred" := by
  refine ⟨"API error: " ++ toString r.status ++ " " ++ r.bodyText, ?_, ?_, ?_, ?_, rfl⟩
  · unfold generateDraftEmailResult postAPIResult respOk
    rw [if_neg]
    simpa using h
  · refine ⟨"API error: ", " " ++ r.bodyText, ?_⟩
    apply String.ext
    simp [String.data_append, List.append_assoc]
  · exact ⟨"API error: " ++ toString r.status ++ " ", rfl⟩
  · have hne : ("API error: " ++ toString r.status ++ " " ++ r.bodyText) ≠ "" := by
      intro hcontra
      have hl := congrArg String.length hcontra
      simp only [String.length_append] at hl
      have h11 : "API error: ".length = 11 := rfl
      have h0 : ("" : String).length = 0 := rfl
      omega
    simp [displayedDraftError, strOrElse, hne]

theorem draft_error_message_verbatim_witness :
    ∃ msg, generateDraftEmailResult 7 ⟨500, "boom"⟩ = .error (.apiError msg)
      ∧ (∃ a b, msg = a ++ toString (500 : Nat) ++ b)
      ∧ (∃ c, msg = c ++ "boom")
      ∧ displayedDraftError (some msg) = msg
      ∧ displayedDraftError none = "An unexpected error occurred" :=
  draft_error_message_verbatim 7 ⟨500, "boom"⟩ (by decide)

/-- C8 (counterexample): with `total = 0` but `qualified = 1` the
unguarded division yields `+Infinity`, so the rendered subtitle is
`Infinity% of total`, not `NaN% of total` — the claim's universal
`NaN% of total` conclusion for every zero-total input is false. -/
theorem qualified_share_zero_total_counterexample :
    qualifiedSubtitle 1 0 = "Infinity% of total"
  ∧ qualifiedSubtitle 1 0 ≠ "NaN% of total" := by
  constructor
  · rfl
  · decide

/-- C8 (amended): the `Qualified` card's share is the unguarded division
result — never a guarded `0` — and with `total = 0` the subtitle is
`NaN% of total` exactly when `qualified` is also `0` (the only state a
consistent stats overview can produce), and `Infinity% of total` when
`qualified > 0`. -/
theorem qualified_share_zero_total (q t : Nat) (h : t = 0) :
    qualifiedSubtitle q t =
      (if q = 0 then "NaN% of total" else "Infinity% of total")
  ∧ jsDivNat q t ≠ .finite 0 := by
  subst h
  constructor
  · by_cases hq : q = 0 <;>
      simp [qualifiedSubtitle, jsDivNat, jsMul100, toFixed1, hq]
  · by_cases hq : q = 0 <;> simp [jsDivNat, hq]

theorem qualified_share_zero_total_witness :
    qualifiedSubtitle 0 0 =
      (if (0 : Nat) = 0 then "NaN% of total" else "Infinity% of total")
  ∧ jsDivNat 0 0 ≠ .finite 0 :=
  qualified_share_zero_total 0 0 rfl

/-- C9: a lead whose `is_qualified` field is `null` renders the
`Disqualified` status in both the leads-table row and the detail page
(`null` is conflated with `false`), and the `Qualified` status is
rendered exactly when `is_qualified` is `true`. -/
theorem null_qualified_renders_disqualified :
    leadRowStatus none = "Disqualified"
  ∧ leadDetailStatus none = "Disqualified"
  ∧ (∀ q : Option Bool, leadRowStatus q = "Qualified" ↔ q = some true)
  ∧ (∀ q : Option Bool, leadDetailStatus q = "Qualified" ↔ q = some true) := by
  refine ⟨rfl, rfl, ?_, ?_⟩ <;>
    · intro q
      rcases q with _ | b
      · decide
      · cases b <;> decide

/-- C10 (counterexample): at the bucket boundary score 20 the per-lead
label and the legend label of the bucket containing it disagree —
`getScoreLabel 20 = 'Fair'` while bucket `0-20` is labeled `'Low'` (and
likewise 40 gets `'Good'` vs `'Fair'`, 60 gets `'Excellent'` vs
`'Good'`), so the claimed agreement at the boundaries fails. -/
theorem score_label_boundary_counterexample :
    getScoreLabel (some 20) = "Fair"
  ∧ specBucketLabel 20 = "Low"
  ∧ getScoreLabel (some 20) ≠ specBucketLabel 20
  ∧ getScoreLabel (some 40) ≠ specBucketLabel 40
  ∧ getScoreLabel (some 60) ≠ specBucketLabel 60 := by
  refine ⟨rfl, rfl, ?_, ?_, ?_⟩ <;> decide

/-- C10 (amended): for every integer score `s` with `0 ≤ s ≤ 80` other
than the bucket boundaries 20, 40 and 60, `getScoreLabel s` equals the
legend label of the fixed histogram bucket containing `s`; at 20, 40 and
60 the per-lead label is the next bucket's label instead. -/
theorem score_label_matches_legend_off_boundary (s : Int)
    (h0 : 0 ≤ s) (h80 : s ≤ 80)
    (h20 : s ≠ 20) (h40 : s ≠ 40) (h60 : s ≠ 60) :
    getScoreLabel (some s) = specBucketLabel s := by
  show (if s ≥ 60 then "Excellent"
        else if s ≥ 40 then "Good"
        else if s ≥ 20 then "Fair"
        else "Low") = specBucketLabel s
  unfold specBucketLabel specBucketOf legendLabel scoreChartLegend
  split_ifs <;> first | rfl | omega

theorem score_label_matches_legend_off_boundary_witness :
    getScoreLabel (some 30) = specBucketLabel 30 :=
  score_label_matches_legend_off_boundary 30 (by decide) (by decide)
    (by decide) (by decide) (by decide)

end FoodFinder
